import Mathlib

/-!
Verification of the GoAudio WAVE writer (`wave/writer.go`).

The Go code is shallowly embedded as follows:

* byte slices (`[]byte`) become `List Nat`, each element intended `< 256`;
* Go's 64-bit `int` becomes `Int`; the conversions `uint16(i)` / `uint32(i)`
  performed by `appendInt16` / `appendInt32` become reduction modulo `2^16` /
  `2^32` (Lean's `%` on `Int` returns the non-negative representative, which
  is exactly the two's-complement low-bits view Go uses);
* Go integer division (which truncates toward zero) becomes `Int.tdiv`;
* `float64` samples (`Frame`) are modelled as exact rationals `Rat`; the Go
  conversion `int(f)` (truncation toward zero) becomes truncated division of
  numerator by denominator.  All sample values used in concrete theorems
  (`1`, `2`, `3/2`, …) are exactly representable in `float64` and the
  products involved are exact, so the rational model agrees with the IEEE
  semantics at every concrete input evaluated here;
* the Go map lookup `appendIntFm[bits]` returns `Option`: a missing key in Go
  yields a `nil` function whose call panics, so the packing functions return
  `Option` and `none` models that panic;
* an `io.Writer` is modelled by the behaviour of its successive `Write`
  calls: a function `Nat → Option ε` giving, for the n-th write attempt,
  `none` (success) or `some e` (the error returned).  `WriteWaveToWriter`
  returns the outcome together with the list of byte regions handed to
  `Write`, in order.

The repository file `wave/types.go` (defining `Frame`, `WaveFmt`, `WaveData`
and `maxValues`) is not part of the sources provided; the structures are
reconstructed from their field usage in `writer.go`, and `maxValues` is
modelled from the specification (see its doc comment).

Note: the source text of `fmtToBytes` in `writer.go` contains an unresolved
merge conflict marker; both conflict branches build the same byte sequence
(Subchunk1ID, then the seven little-endian fields appended by
`appendInt32`/`appendInt16`), which is what `fmtToBytes` below produces.
-/

namespace GoAudio.Wave

/-- A `[]byte` is a list of byte values. -/
abbrev Bytes := List Nat

/-- `type Frame float64` (from the repository's types file, absent from the
provided sources): a single normalized audio sample, modelled as an exact
rational. -/
abbrev Frame := Rat

/-- `ChunkID = []byte{0x52, 0x49, 0x46, 0x46}` — ASCII "RIFF". -/
def ChunkID : Bytes := [0x52, 0x49, 0x46, 0x46]

/-- `BigEndianChunkID = []byte{0x52, 0x49, 0x46, 0x58}` — ASCII "RIFX"
(declared in the source but used by no write path). -/
def BigEndianChunkID : Bytes := [0x52, 0x49, 0x46, 0x58]

/-- `WaveID = []byte{0x57, 0x41, 0x56, 0x45}` — ASCII "WAVE". -/
def WaveID : Bytes := [0x57, 0x41, 0x56, 0x45]

/-- `Format = []byte{0x66, 0x6d, 0x74, 0x20}` — ASCII "fmt ". -/
def Format : Bytes := [0x66, 0x6d, 0x74, 0x20]

/-- `Subchunk2ID = []byte{0x64, 0x61, 0x74, 0x61}` — ASCII "data". -/
def Subchunk2ID : Bytes := [0x64, 0x61, 0x74, 0x61]

/-- The `WaveFmt` record, reconstructed from the fields `writer.go` reads
(`Subchunk1ID`, `Subchunk1Size`, `AudioFormat`, `NumChannels`, `SampleRate`,
`ByteRate`, `BlockAlign`, `BitsPerSample`). -/
structure WaveFmt where
  Subchunk1ID : Bytes
  Subchunk1Size : Int
  AudioFormat : Int
  NumChannels : Int
  SampleRate : Int
  ByteRate : Int
  BlockAlign : Int
  BitsPerSample : Int
  deriving Repr, DecidableEq

/-- The `WaveData` record built by `framesToData`. -/
structure WaveData where
  Subchunk2ID : Bytes
  Subchunk2Size : Int
  RawData : Bytes
  Frames : List Frame
  deriving Repr, DecidableEq

/-- Little-endian bytes of `uint16(i)`: Go's conversion keeps the low 16 bits
of the two's-complement representation, i.e. `i mod 2^16`. -/
def uint16LE (i : Int) : Bytes :=
  let v := (i % 65536).toNat
  [v % 256, v / 256]

/-- Little-endian bytes of `uint32(i)`: the low 32 bits, `i mod 2^32`. -/
def uint32LE (i : Int) : Bytes :=
  let v := (i % 4294967296).toNat
  [v % 256, v / 256 % 256, v / 65536 % 256, v / 16777216 % 256]

/-- `appendInt16(b, i)`: append the 2 little-endian bytes of `uint16(i)`. -/
def appendInt16 (b : Bytes) (i : Int) : Bytes := b ++ uint16LE i

/-- `appendInt32(b, i)`: append the 4 little-endian bytes of `uint32(i)`. -/
def appendInt32 (b : Bytes) (i : Int) : Bytes := b ++ uint32LE i

/-- The map `appendIntFm = {16: appendInt16, 32: appendInt32}`; a lookup at a
missing key yields Go's zero value `nil`, modelled as `none` (calling it
panics). -/
def appendIntFm (bits : Int) : Option (Bytes → Int → Bytes) :=
  if bits = 16 then some appendInt16
  else if bits = 32 then some appendInt32
  else none

/-- Modelled from the spec: the `maxValues` table lives in the repository's
types file, which is absent from the provided sources.  The spec (§4.1)
says rescaling multiplies by "the maximum representable magnitude for the
target width (e.g., for 16-bit, the maximum positive signed value)", so the
table maps 16 to `2^15 - 1` and 32 to `2^31 - 1`; a missing key yields Go's
zero value 0. -/
def maxValues (bits : Int) : Int :=
  if bits = 16 then 32767
  else if bits = 32 then 2147483647
  else 0

/-- Truncation toward zero of a rational, the semantics of Go's `int(f)`
conversion for a `float64` holding an exact value. -/
def ratTrunc (q : Rat) : Int := Int.tdiv q.num (q.den : Int)

/-- `rescaleFrame(s, bits) = int(float64(s) * float64(maxValues[bits]))`. -/
def rescaleFrame (s : Frame) (bits : Int) : Int :=
  ratTrunc (s * (maxValues bits : Rat))

/-- The loop of `samplesToRawData`, threading the accumulator `raw`; `none`
models the panic of calling the `nil` function obtained from a missing
`appendIntFm` key. -/
def samplesToRawDataLoop (props : WaveFmt) : List Frame → Bytes → Option Bytes
  | [], raw => some raw
  | s :: rest, raw =>
    match appendIntFm props.BitsPerSample with
    | none => none
    | some f => samplesToRawDataLoop props rest (f raw (rescaleFrame s props.BitsPerSample))

/-- `samplesToRawData(samples, props)`: rescale each sample and append its
fixed-width little-endian bytes to an initially empty buffer. -/
def samplesToRawData (samples : List Frame) (props : WaveFmt) : Option Bytes :=
  samplesToRawDataLoop props samples []

/-- The `subchunksize` computed inside `framesToData`:
`(len(frames) * wfmt.NumChannels * wfmt.BitsPerSample) / 8`, with Go's
truncating integer division. -/
def dataSize (frames : List Frame) (wfmt : WaveFmt) : Int :=
  Int.tdiv ((frames.length : Int) * wfmt.NumChannels * wfmt.BitsPerSample) 8

/-- `framesToData(frames, wfmt)`: pack the raw PCM bytes, compute
`subchunksize` (see `dataSize`), and build both the `WaveData` record and
the data-chunk byte region `"data" ∥ uint32LE(subchunksize) ∥ raw`. -/
def framesToData (frames : List Frame) (wfmt : WaveFmt) : Option (WaveData × Bytes) :=
  (samplesToRawData frames wfmt).map fun raw =>
    let subchunksize : Int := dataSize frames wfmt
    let b := appendInt32 (([] : Bytes) ++ Subchunk2ID) subchunksize ++ raw
    (⟨Subchunk2ID, subchunksize, raw, frames⟩, b)

/-- `fmtToBytes(wfmt)`: the caller-supplied `Subchunk1ID` followed by the
seven descriptor fields, each appended little-endian at its wire width. -/
def fmtToBytes (wfmt : WaveFmt) : Bytes :=
  let b := ([] : Bytes) ++ wfmt.Subchunk1ID
  let b := appendInt32 b wfmt.Subchunk1Size
  let b := appendInt16 b wfmt.AudioFormat
  let b := appendInt16 b wfmt.NumChannels
  let b := appendInt32 b wfmt.SampleRate
  let b := appendInt32 b wfmt.ByteRate
  let b := appendInt16 b wfmt.BlockAlign
  let b := appendInt16 b wfmt.BitsPerSample
  b

/-- `createHeader(wd)`: `"RIFF" ∥ uint32LE(36 + wd.Subchunk2Size) ∥ "WAVE"`. -/
def createHeader (wd : WaveData) : Bytes :=
  let chunksize : Int := 36 + wd.Subchunk2Size
  let bits := ([] : Bytes) ++ ChunkID
  let bits := appendInt32 bits chunksize
  bits ++ WaveID

/-- Outcome of a `WriteWaveToWriter` call: normal return `ok`, a write error
returned to the caller, or a runtime panic (the `nil` packer lookup). -/
inductive WriteOutcome (ε : Type) where
  | ok : WriteOutcome ε
  | writeErr : ε → WriteOutcome ε
  | panic : WriteOutcome ε
  deriving Repr, DecidableEq

/-- `WriteWaveToWriter(samples, wfmt, writer)`.  The writer is modelled by
`w : Nat → Option ε`, the behaviour of its n-th `Write` call.  The result is
the outcome paired with the byte regions handed to `Write`, in order: the
code computes `fmtToBytes`, then `framesToData` (where an unsupported bit
depth panics, before any write), then `createHeader`, and then performs the
three writes sequentially, returning the first error. -/
def WriteWaveToWriter (samples : List Frame) (wfmt : WaveFmt) (w : Nat → Option ε) :
    WriteOutcome ε × List Bytes :=
  let wfb := fmtToBytes wfmt
  match framesToData samples wfmt with
  | none => (.panic, [])
  | some (data, databits) =>
    let hdr := createHeader data
    match w 0 with
    | some e => (.writeErr e, [hdr])
    | none =>
      match w 1 with
      | some e => (.writeErr e, [hdr, wfb])
      | none =>
        match w 2 with
        | some e => (.writeErr e, [hdr, wfb, databits])
        | none => (.ok, [hdr, wfb, databits])

/-- The complete byte stream a successful call emits: header, format chunk,
data chunk, concatenated. -/
def waveBytes (samples : List Frame) (wfmt : WaveFmt) : Option Bytes :=
  (framesToData samples wfmt).map fun p => createHeader p.1 ++ fmtToBytes wfmt ++ p.2

/-- Decode the 4-byte little-endian unsigned integer at offset `off`. -/
def readU32 (bs : Bytes) (off : Nat) : Nat :=
  bs.getD off 0 + 256 * bs.getD (off + 1) 0 + 65536 * bs.getD (off + 2) 0 +
    16777216 * bs.getD (off + 3) 0

/-! ### Basic facts about the byte encoders and chunk builders -/

@[simp] lemma uint16LE_length (i : Int) : (uint16LE i).length = 2 := rfl

@[simp] lemma uint32LE_length (i : Int) : (uint32LE i).length = 4 := rfl

@[simp] lemma ChunkID_length : ChunkID.length = 4 := rfl

@[simp] lemma WaveID_length : WaveID.length = 4 := rfl

@[simp] lemma Subchunk2ID_length : Subchunk2ID.length = 4 := rfl

lemma fmtToBytes_eq (wfmt : WaveFmt) :
    fmtToBytes wfmt =
      wfmt.Subchunk1ID ++ uint32LE wfmt.Subchunk1Size ++ uint16LE wfmt.AudioFormat ++
        uint16LE wfmt.NumChannels ++ uint32LE wfmt.SampleRate ++ uint32LE wfmt.ByteRate ++
        uint16LE wfmt.BlockAlign ++ uint16LE wfmt.BitsPerSample := by
  simp [fmtToBytes, appendInt16, appendInt32]

lemma fmtToBytes_length (wfmt : WaveFmt) (hID : wfmt.Subchunk1ID.length = 4) :
    (fmtToBytes wfmt).length = 24 := by
  simp [fmtToBytes_eq, hID]

lemma createHeader_eq (wd : WaveData) :
    createHeader wd = ChunkID ++ uint32LE (36 + wd.Subchunk2Size) ++ WaveID := rfl

@[simp] lemma createHeader_length (wd : WaveData) : (createHeader wd).length = 12 := by
  simp [createHeader_eq]

/-! ### The packing loop -/

lemma samplesToRawDataLoop_sixteen (props : WaveFmt) (h : props.BitsPerSample = 16)
    (l : List Frame) : ∀ acc : Bytes,
    samplesToRawDataLoop props l acc =
      some (acc ++ l.flatMap fun s => uint16LE (rescaleFrame s 16)) := by
  induction l with
  | nil => intro acc; simp [samplesToRawDataLoop]
  | cons s rest ih =>
    intro acc
    simp [samplesToRawDataLoop, h, appendIntFm, appendInt16, ih, List.append_assoc]

lemma samplesToRawDataLoop_thirtytwo (props : WaveFmt) (h : props.BitsPerSample = 32)
    (l : List Frame) : ∀ acc : Bytes,
    samplesToRawDataLoop props l acc =
      some (acc ++ l.flatMap fun s => uint32LE (rescaleFrame s 32)) := by
  induction l with
  | nil => intro acc; simp [samplesToRawDataLoop]
  | cons s rest ih =>
    intro acc
    simp [samplesToRawDataLoop, h, appendIntFm, appendInt32, ih, List.append_assoc]

lemma samplesToRawDataLoop_unsupported (props : WaveFmt) (h16 : props.BitsPerSample ≠ 16)
    (h32 : props.BitsPerSample ≠ 32) (s : Frame) (l : List Frame) (acc : Bytes) :
    samplesToRawDataLoop props (s :: l) acc = none := by
  simp [samplesToRawDataLoop, appendIntFm, h16, h32]

lemma samplesToRawData_sixteen (samples : List Frame) (props : WaveFmt)
    (h : props.BitsPerSample = 16) :
    samplesToRawData samples props =
      some (samples.flatMap fun s => uint16LE (rescaleFrame s 16)) := by
  simpa using samplesToRawDataLoop_sixteen props h samples []

lemma samplesToRawData_thirtytwo (samples : List Frame) (props : WaveFmt)
    (h : props.BitsPerSample = 32) :
    samplesToRawData samples props =
      some (samples.flatMap fun s => uint32LE (rescaleFrame s 32)) := by
  simpa using samplesToRawDataLoop_thirtytwo props h samples []

lemma flatMap_const_length {g : Frame → Bytes} (k : Nat) (hg : ∀ s, (g s).length = k)
    (l : List Frame) : (l.flatMap g).length = l.length * k := by
  induction l with
  | nil => simp
  | cons s rest ih => simp [hg, ih, Nat.succ_mul, Nat.add_comm]

/-! ### Structure of a successful encode -/

lemma waveBytes_some {samples : List Frame} {wfmt : WaveFmt} {out : Bytes}
    (h : waveBytes samples wfmt = some out) :
    ∃ raw, samplesToRawData samples wfmt = some raw ∧
      out = ChunkID ++ (uint32LE (36 + dataSize samples wfmt) ++ (WaveID ++
        (wfmt.Subchunk1ID ++ (uint32LE wfmt.Subchunk1Size ++ (uint16LE wfmt.AudioFormat ++
        (uint16LE wfmt.NumChannels ++ (uint32LE wfmt.SampleRate ++ (uint32LE wfmt.ByteRate ++
        (uint16LE wfmt.BlockAlign ++ (uint16LE wfmt.BitsPerSample ++ (Subchunk2ID ++
        (uint32LE (dataSize samples wfmt) ++ raw)))))))))))) := by
  unfold waveBytes framesToData at h
  rcases hr : samplesToRawData samples wfmt with _ | raw
  · rw [hr] at h; simp at h
  · rw [hr] at h
    simp only [Option.map_some, Option.map_some', Option.some.injEq] at h
    refine ⟨raw, rfl, ?_⟩
    rw [← h]
    simp [createHeader, fmtToBytes, appendInt16, appendInt32, List.append_assoc]

lemma waveBytes_length {samples : List Frame} {wfmt : WaveFmt} {out : Bytes} {raw : Bytes}
    (hID : wfmt.Subchunk1ID.length = 4)
    (h : waveBytes samples wfmt = some out)
    (hraw : samplesToRawData samples wfmt = some raw) :
    out.length = 44 + raw.length := by
  obtain ⟨raw', hraw', hout⟩ := waveBytes_some h
  rw [hraw] at hraw'
  obtain rfl : raw = raw' := by simpa using hraw'
  subst hout
  simp [hID]
  omega

/-! ### Reading back the little-endian size fields -/

lemma readU32_cons (x : Nat) (bs : Bytes) (n : Nat) :
    readU32 (x :: bs) (n + 1) = readU32 bs n := rfl

lemma readU32_append (pre bs : Bytes) (n : Nat) :
    readU32 (pre ++ bs) (pre.length + n) = readU32 bs n := by
  induction pre with
  | nil => simp
  | cons x p ih =>
    have h1 : (x :: p).length + n = (p.length + n) + 1 := by simp; omega
    rw [h1, List.cons_append, readU32_cons, ih]

lemma readU32_uint32LE (v : Int) (bs : Bytes) :
    readU32 (uint32LE v ++ bs) 0 = (v % 4294967296).toNat := by
  simp [readU32, uint32LE]
  omega

/-! ### Concrete format descriptors used as test inputs -/

/-- A standard mono 16-bit 44.1 kHz descriptor. -/
def wfmtStd : WaveFmt := ⟨Format, 16, 1, 1, 44100, 88200, 2, 16⟩

/-- A stereo 16-bit 44.1 kHz descriptor. -/
def stereoFmt16 : WaveFmt := ⟨Format, 16, 1, 2, 44100, 176400, 4, 16⟩

/-- A descriptor asking for the unsupported bit depth 8. -/
def fmt8 : WaveFmt := ⟨Format, 16, 1, 1, 44100, 44100, 1, 8⟩

/-- A descriptor whose caller-supplied `Subchunk1ID` is "XXXX", not "fmt ". -/
def badTagFmt : WaveFmt := ⟨[88, 88, 88, 88], 16, 1, 1, 44100, 88200, 2, 16⟩

/-- The rescaling operation as the specification words it: multiply the
normalized sample by the maximum positive signed value representable in `b`
bits, and truncate toward zero. -/
def specRescale (s : Rat) (b : Nat) : Int :=
  ratTrunc (s * ((2 ^ (b - 1) - 1 : Int) : Rat))

/-! ### Claim theorems -/

/-- C4: for every sample sequence and every supported bit depth b ∈ {16, 32},
the packed PCM byte buffer is exactly the concatenation, in input order, of
the b/8 little-endian bytes of each rescaled sample, and its length is
exactly N × (b/8). -/
theorem samplesToRawData_packs_exact (samples : List Frame) (props : WaveFmt) :
    (props.BitsPerSample = 16 →
      samplesToRawData samples props =
        some (samples.flatMap fun s => uint16LE (rescaleFrame s 16)) ∧
      (samples.flatMap fun s => uint16LE (rescaleFrame s 16)).length = samples.length * 2) ∧
    (props.BitsPerSample = 32 →
      samplesToRawData samples props =
        some (samples.flatMap fun s => uint32LE (rescaleFrame s 32)) ∧
      (samples.flatMap fun s => uint32LE (rescaleFrame s 32)).length = samples.length * 4) := by
  constructor
  · intro h
    exact ⟨samplesToRawData_sixteen samples props h,
      flatMap_const_length 2 (fun s => uint16LE_length _) samples⟩
  · intro h
    exact ⟨samplesToRawData_thirtytwo samples props h,
      flatMap_const_length 4 (fun s => uint32LE_length _) samples⟩

/-- Witness for C4 at samples = [1], a mono 16-bit descriptor. -/
theorem samplesToRawData_packs_exact_witness :
    (wfmtStd.BitsPerSample = 16) ∧
    (samplesToRawData [(1 : Frame)] wfmtStd =
        some ([(1 : Frame)].flatMap fun s => uint16LE (rescaleFrame s 16)) ∧
      ([(1 : Frame)].flatMap fun s => uint16LE (rescaleFrame s 16)).length =
        [(1 : Frame)].length * 2) :=
  ⟨by decide, (samplesToRawData_packs_exact [(1 : Frame)] wfmtStd).1 (by decide)⟩

/-- C6: for every sample s and target depth b ∈ {16, 32}, the rescaled
integer is s times the maximum positive signed value representable in b bits,
truncated toward zero; no clamping is applied, so the out-of-range sample
3/2 yields 49150, which exceeds the 16-bit maximum 32767, instead of an
error. -/
theorem rescaleFrame_matches_spec :
    (∀ s : Frame, rescaleFrame s 16 = specRescale s 16 ∧ rescaleFrame s 32 = specRescale s 32) ∧
    rescaleFrame (3 / 2) 16 = 49150 ∧ 32767 < rescaleFrame (3 / 2) 16 := by
  have h32 : rescaleFrame (3 / 2) 16 = 49150 := by
    norm_num [rescaleFrame, ratTrunc, maxValues]
    decide
  refine ⟨fun s => ⟨?_, ?_⟩, h32, by rw [h32]; norm_num⟩
  · norm_num [rescaleFrame, specRescale, maxValues]
  · norm_num [rescaleFrame, specRescale, maxValues]

/-- C8 counterexample: for a format descriptor whose `Subchunk1ID` is "XXXX",
the emitted format chunk does not begin with the tag "fmt ": the code echoes
the caller-supplied tag. -/
theorem fmtToBytes_tag_not_forced : (fmtToBytes badTagFmt).take 4 ≠ Format := by decide

/-- C8 (amended): for every format descriptor, the emitted format chunk is
the caller-supplied 4-byte `Subchunk1ID` (conventionally "fmt "), a 4-byte
little-endian subchunk1Size, then exactly audioFormatTag (2 bytes),
numChannels (2 bytes), sampleRate (4 bytes), byteRate (4 bytes), blockAlign
(2 bytes), bitsPerSample (2 bytes), all little-endian, each mirroring the
caller-supplied descriptor value without recomputation. -/
theorem fmtToBytes_layout (wfmt : WaveFmt) :
    fmtToBytes wfmt =
      wfmt.Subchunk1ID ++ uint32LE wfmt.Subchunk1Size ++ uint16LE wfmt.AudioFormat ++
        uint16LE wfmt.NumChannels ++ uint32LE wfmt.SampleRate ++ uint32LE wfmt.ByteRate ++
        uint16LE wfmt.BlockAlign ++ uint16LE wfmt.BitsPerSample := by
  simp [fmtToBytes, appendInt16, appendInt32]

/-- C1: at the failing input of one frame with a stereo 16-bit descriptor,
`framesToData` stores 4 in the data subchunk-size field while the PCM payload
that follows it is 2 bytes long: the size field does not equal the payload
length. -/
theorem framesToData_size_field_mismatch :
    (framesToData [(1 : Frame)] stereoFmt16).map
        (fun p => (p.1.Subchunk2Size, (p.1.RawData.length : Int))) = some (4, 2) ∧
    (4 : Int) ≠ 2 := by
  have hraw : samplesToRawData [(1 : Frame)] stereoFmt16 = some [255, 127] := by
    norm_num [samplesToRawData, samplesToRawDataLoop, appendIntFm, stereoFmt16, appendInt16,
      rescaleFrame, ratTrunc, maxValues, uint16LE]
    decide
  refine ⟨?_, by decide⟩
  rw [framesToData, hraw]
  simp [dataSize, stereoFmt16]
  decide

/-- C2 counterexample: with the empty sample sequence and the unsupported bit
depth 8, the encode does not fail: it returns success and hands 44 bytes to
the sink. -/
theorem empty_sequence_bad_depth_succeeds :
    (WriteWaveToWriter ([] : List Frame) fmt8 (fun _ => (none : Option Unit))).1 =
      WriteOutcome.ok ∧
    ((WriteWaveToWriter ([] : List Frame) fmt8 (fun _ => (none : Option Unit))).2.flatten).length
      = 44 := by
  constructor <;> decide

/-- C2 (amended): for every non-empty sample sequence and every format
descriptor whose bitsPerSample is not in {16, 32}, the encode aborts
deterministically (the run-time panic of calling the nil packer obtained
from the missing lookup key) before any byte is handed to the sink, leaving
no partial output. -/
theorem unsupported_depth_aborts_before_write {ε : Type} (samples : List Frame)
    (wfmt : WaveFmt) (w : Nat → Option ε) (hne : samples ≠ [])
    (h16 : wfmt.BitsPerSample ≠ 16) (h32 : wfmt.BitsPerSample ≠ 32) :
    WriteWaveToWriter samples wfmt w = (.panic, []) := by
  rcases samples with _ | ⟨s, rest⟩
  · exact absurd rfl hne
  · rw [WriteWaveToWriter]
    rw [framesToData, samplesToRawData, samplesToRawDataLoop_unsupported wfmt h16 h32]
    rfl

/-- Witness for C2 (amended) at samples = [1] and bit depth 8. -/
theorem unsupported_depth_aborts_before_write_witness :
    ([(1 : Frame)] ≠ []) ∧ (fmt8.BitsPerSample ≠ 16) ∧ (fmt8.BitsPerSample ≠ 32) ∧
    WriteWaveToWriter [(1 : Frame)] fmt8 (fun _ => (none : Option Unit)) = (.panic, []) :=
  ⟨by decide, by decide, by decide,
    unsupported_depth_aborts_before_write [(1 : Frame)] fmt8 (fun _ => none)
      (by decide) (by decide) (by decide)⟩

lemma drop_block {l₂ : Bytes} (l₁ : Bytes) {n : Nat} (k : Nat) (h : l₁.length = n) :
    (l₁ ++ l₂).drop (n + k) = l₂.drop k := by
  rw [← h, List.drop_append]

/-- Dropping the 12-byte RIFF header and the 24-byte format chunk from the
canonical output shape leaves the data chunk. -/
lemma waveTail (wfmt : WaveFmt) (hID : wfmt.Subchunk1ID.length = 4) (v : Int) (tail : Bytes) :
    (ChunkID ++ (uint32LE v ++ (WaveID ++ (wfmt.Subchunk1ID ++ (uint32LE wfmt.Subchunk1Size ++
      (uint16LE wfmt.AudioFormat ++ (uint16LE wfmt.NumChannels ++ (uint32LE wfmt.SampleRate ++
      (uint32LE wfmt.ByteRate ++ (uint16LE wfmt.BlockAlign ++ (uint16LE wfmt.BitsPerSample ++
      tail))))))))))).drop 36 = tail := by
  rw [show (36 : Nat) = 4 + 32 from rfl, drop_block ChunkID 32 ChunkID_length]
  rw [show (32 : Nat) = 4 + 28 from rfl, drop_block (uint32LE v) 28 (uint32LE_length v)]
  rw [show (28 : Nat) = 4 + 24 from rfl, drop_block WaveID 24 WaveID_length]
  rw [show (24 : Nat) = 4 + 20 from rfl, drop_block wfmt.Subchunk1ID 20 hID]
  rw [show (20 : Nat) = 4 + 16 from rfl, drop_block (uint32LE _) 16 (uint32LE_length _)]
  rw [show (16 : Nat) = 2 + 14 from rfl, drop_block (uint16LE _) 14 (uint16LE_length _)]
  rw [show (14 : Nat) = 2 + 12 from rfl, drop_block (uint16LE _) 12 (uint16LE_length _)]
  rw [show (12 : Nat) = 4 + 8 from rfl, drop_block (uint32LE _) 8 (uint32LE_length _)]
  rw [show (8 : Nat) = 4 + 4 from rfl, drop_block (uint32LE _) 4 (uint32LE_length _)]
  rw [show (4 : Nat) = 2 + 2 from rfl, drop_block (uint16LE _) 2 (uint16LE_length _)]
  rw [List.drop_left' (uint16LE_length _)]

/-- C5: in every generated file the header is the ASCII tag "RIFF", then the
4-byte little-endian chunk-size field holding 36 plus the data subchunk-size
value, then the ASCII tag "WAVE", in that order; the same value whose
encoding sits in the data subchunk-size field at offset 40 reappears, plus
36, at offset 4. -/
theorem riff_header_and_size (samples : List Frame) (wfmt : WaveFmt) (out : Bytes)
    (hID : wfmt.Subchunk1ID.length = 4)
    (hout : waveBytes samples wfmt = some out) :
    ChunkID = [82, 73, 70, 70] ∧ WaveID = [87, 65, 86, 69] ∧
    out.take 4 = ChunkID ∧
    (out.drop 4).take 4 = uint32LE (36 + dataSize samples wfmt) ∧
    (out.drop 8).take 4 = WaveID ∧
    (out.drop 40).take 4 = uint32LE (dataSize samples wfmt) ∧
    readU32 out 4 = ((36 + dataSize samples wfmt) % 4294967296).toNat := by
  obtain ⟨raw, hraw, rfl⟩ := waveBytes_some hout
  refine ⟨rfl, rfl, ?_, ?_, ?_, ?_, ?_⟩
  · exact List.take_left' ChunkID_length
  · rw [List.drop_left' ChunkID_length]
    exact List.take_left' (uint32LE_length _)
  · rw [show (8 : Nat) = 4 + 4 from rfl, drop_block ChunkID 4 ChunkID_length,
      List.drop_left' (uint32LE_length _)]
    exact List.take_left' WaveID_length
  · rw [show (40 : Nat) = 36 + 4 from rfl, ← List.drop_drop, waveTail wfmt hID,
      List.drop_left' Subchunk2ID_length]
    exact List.take_left' (uint32LE_length _)
  · rw [show (4 : Nat) = ChunkID.length + 0 from rfl, readU32_append]
    exact readU32_uint32LE _ _

/-- Witness for C5: the 44-byte file produced from no samples and a standard
mono 16-bit descriptor. -/
theorem riff_header_and_size_witness :
    wfmtStd.Subchunk1ID.length = 4 ∧
    waveBytes ([] : List Frame) wfmtStd =
      some [82, 73, 70, 70, 36, 0, 0, 0, 87, 65, 86, 69,
            102, 109, 116, 32, 16, 0, 0, 0, 1, 0, 1, 0, 68, 172, 0, 0,
            136, 88, 1, 0, 2, 0, 16, 0, 100, 97, 116, 97, 0, 0, 0, 0] ∧
    (ChunkID = [82, 73, 70, 70] ∧ WaveID = [87, 65, 86, 69] ∧
      List.take 4 [82, 73, 70, 70, 36, 0, 0, 0, 87, 65, 86, 69,
            102, 109, 116, 32, 16, 0, 0, 0, 1, 0, 1, 0, 68, 172, 0, 0,
            136, 88, 1, 0, 2, 0, 16, 0, 100, 97, 116, 97, 0, 0, 0, 0] = ChunkID ∧
      (List.drop 4 [82, 73, 70, 70, 36, 0, 0, 0, 87, 65, 86, 69,
            102, 109, 116, 32, 16, 0, 0, 0, 1, 0, 1, 0, 68, 172, 0, 0,
            136, 88, 1, 0, 2, 0, 16, 0, 100, 97, 116, 97, 0, 0, 0, 0]).take 4 =
        uint32LE (36 + dataSize [] wfmtStd) ∧
      (List.drop 8 [82, 73, 70, 70, 36, 0, 0, 0, 87, 65, 86, 69,
            102, 109, 116, 32, 16, 0, 0, 0, 1, 0, 1, 0, 68, 172, 0, 0,
            136, 88, 1, 0, 2, 0, 16, 0, 100, 97, 116, 97, 0, 0, 0, 0]).take 4 = WaveID ∧
      (List.drop 40 [82, 73, 70, 70, 36, 0, 0, 0, 87, 65, 86, 69,
            102, 109, 116, 32, 16, 0, 0, 0, 1, 0, 1, 0, 68, 172, 0, 0,
            136, 88, 1, 0, 2, 0, 16, 0, 100, 97, 116, 97, 0, 0, 0, 0]).take 4 =
        uint32LE (dataSize [] wfmtStd) ∧
      readU32 [82, 73, 70, 70, 36, 0, 0, 0, 87, 65, 86, 69,
            102, 109, 116, 32, 16, 0, 0, 0, 1, 0, 1, 0, 68, 172, 0, 0,
            136, 88, 1, 0, 2, 0, 16, 0, 100, 97, 116, 97, 0, 0, 0, 0] 4 =
        ((36 + dataSize [] wfmtStd) % 4294967296).toNat) :=
  ⟨by decide, by decide,
    riff_header_and_size [] wfmtStd _ (by decide) (by decide)⟩

/-- C9: for every input on which packing succeeds, the encoder hands exactly
three regions to the sink, in the fixed order RIFF header, format chunk,
data chunk; if the first, second or third write fails the operation stops
there, attempts no later write, and returns that failure to the caller. -/
theorem write_order_and_abort {ε : Type} (samples : List Frame) (wfmt : WaveFmt)
    (w : Nat → Option ε) (fd : WaveData × Bytes)
    (hfd : framesToData samples wfmt = some fd) :
    ((w 0 = none ∧ w 1 = none ∧ w 2 = none) →
      WriteWaveToWriter samples wfmt w =
        (.ok, [createHeader fd.1, fmtToBytes wfmt, fd.2])) ∧
    (∀ e, w 0 = some e →
      WriteWaveToWriter samples wfmt w = (.writeErr e, [createHeader fd.1])) ∧
    (∀ e, w 0 = none → w 1 = some e →
      WriteWaveToWriter samples wfmt w =
        (.writeErr e, [createHeader fd.1, fmtToBytes wfmt])) ∧
    (∀ e, w 0 = none → w 1 = none → w 2 = some e →
      WriteWaveToWriter samples wfmt w =
        (.writeErr e, [createHeader fd.1, fmtToBytes wfmt, fd.2])) := by
  obtain ⟨data, databits⟩ := fd
  refine ⟨fun ⟨h0, h1, h2⟩ => ?_, fun e h0 => ?_, fun e h0 h1 => ?_, fun e h0 h1 h2 => ?_⟩ <;>
    simp [WriteWaveToWriter, hfd, h0] <;> simp [h1] <;> simp [h2]

/-- Witness for C9: on empty input with a standard descriptor and a sink
whose second write fails, the encode stops after handing over the header and
the format chunk, and surfaces the failure. -/
theorem write_order_and_abort_witness :
    framesToData ([] : List Frame) wfmtStd =
      some (⟨[100, 97, 116, 97], 0, [], []⟩, [100, 97, 116, 97, 0, 0, 0, 0]) ∧
    WriteWaveToWriter ([] : List Frame) wfmtStd
        (fun n => if n = 1 then some () else none) =
      (.writeErr (), [createHeader ⟨[100, 97, 116, 97], 0, [], []⟩, fmtToBytes wfmtStd]) :=
  ⟨by decide,
    (write_order_and_abort ([] : List Frame) wfmtStd
        (fun n => if n = 1 then some () else none)
        (⟨[100, 97, 116, 97], 0, [], []⟩, [100, 97, 116, 97, 0, 0, 0, 0])
        (by decide)).2.2.1 () rfl rfl⟩

/-- C10: for the empty sample sequence and a sink that accepts every write,
`WriteWaveToWriter` returns success and emits a complete 44-byte container
(data subchunk-size value 0, RIFF chunk-size field 36) for any bitsPerSample
value whatsoever, including unsupported ones such as 8, because no
per-sample packing lookup is performed on empty input. -/
theorem empty_input_full_container {ε : Type} (wfmt : WaveFmt)
    (hID : wfmt.Subchunk1ID.length = 4) :
    (WriteWaveToWriter ([] : List Frame) wfmt (fun _ => (none : Option ε))).1 =
      WriteOutcome.ok ∧
    ((WriteWaveToWriter ([] : List Frame) wfmt (fun _ => (none : Option ε))).2.flatten).length
      = 44 ∧
    dataSize [] wfmt = 0 ∧
    ((WriteWaveToWriter ([] : List Frame) wfmt (fun _ => (none : Option ε))).2.flatten).drop 40
      = uint32LE 0 ∧
    readU32 ((WriteWaveToWriter ([] : List Frame) wfmt (fun _ => (none : Option ε))).2.flatten) 4
      = 36 := by
  have hds : dataSize ([] : List Frame) wfmt = 0 := by simp [dataSize]
  have hfd : framesToData ([] : List Frame) wfmt =
      some (⟨Subchunk2ID, 0, [], []⟩, Subchunk2ID ++ uint32LE 0) := by
    simp [framesToData, samplesToRawData, samplesToRawDataLoop, hds, appendInt32]
  have hW : WriteWaveToWriter ([] : List Frame) wfmt (fun _ => (none : Option ε)) =
      (.ok, [createHeader ⟨Subchunk2ID, 0, [], []⟩, fmtToBytes wfmt,
        Subchunk2ID ++ uint32LE 0]) := by
    simp [WriteWaveToWriter, hfd]
  rw [hW]
  have hflat : ([createHeader ⟨Subchunk2ID, 0, [], []⟩, fmtToBytes wfmt,
      Subchunk2ID ++ uint32LE 0] : List Bytes).flatten =
      ChunkID ++ (uint32LE 36 ++ (WaveID ++ (wfmt.Subchunk1ID ++
        (uint32LE wfmt.Subchunk1Size ++ (uint16LE wfmt.AudioFormat ++
        (uint16LE wfmt.NumChannels ++ (uint32LE wfmt.SampleRate ++
        (uint32LE wfmt.ByteRate ++ (uint16LE wfmt.BlockAlign ++
        (uint16LE wfmt.BitsPerSample ++ (Subchunk2ID ++ uint32LE 0))))))))))) := by
    show (createHeader ⟨Subchunk2ID, 0, [], []⟩ ++ (fmtToBytes wfmt ++
      ((Subchunk2ID ++ uint32LE 0) ++ []))) = _
    rw [createHeader_eq, fmtToBytes_eq]
    simp [List.append_assoc]
  rw [hflat]
  refine ⟨rfl, ?_, hds, ?_, ?_⟩
  · simp [hID]
  · rw [show (40 : Nat) = 36 + 4 from rfl, ← List.drop_drop, waveTail wfmt hID,
      List.drop_left' Subchunk2ID_length]
  · rw [show (4 : Nat) = ChunkID.length + 0 from rfl, readU32_append,
      readU32_uint32LE]
    decide

/-- Witness for C10 with the unsupported bit depth 8. -/
theorem empty_input_full_container_witness :
    fmt8.Subchunk1ID.length = 4 ∧
    ((WriteWaveToWriter ([] : List Frame) fmt8 (fun _ => (none : Option Unit))).1 =
      WriteOutcome.ok ∧
    ((WriteWaveToWriter ([] : List Frame) fmt8 (fun _ => (none : Option Unit))).2.flatten).length
      = 44 ∧
    dataSize [] fmt8 = 0 ∧
    ((WriteWaveToWriter ([] : List Frame) fmt8 (fun _ => (none : Option Unit))).2.flatten).drop 40
      = uint32LE 0 ∧
    readU32 ((WriteWaveToWriter ([] : List Frame) fmt8 (fun _ => (none : Option Unit))).2.flatten) 4
      = 36) :=
  ⟨by decide, empty_input_full_container fmt8 (by decide)⟩

/-- The concrete 46-byte output for one sample 1.0 and the standard mono
16-bit descriptor. -/
lemma waveBytes_one_wfmtStd :
    waveBytes [(1 : Frame)] wfmtStd =
      some [82, 73, 70, 70, 38, 0, 0, 0, 87, 65, 86, 69,
            102, 109, 116, 32, 16, 0, 0, 0, 1, 0, 1, 0, 68, 172, 0, 0,
            136, 88, 1, 0, 2, 0, 16, 0, 100, 97, 116, 97, 2, 0, 0, 0, 255, 127] := by
  have hres : rescaleFrame (1 : Frame) 16 = 32767 := by
    norm_num [rescaleFrame, ratTrunc, maxValues]
  have hraw : samplesToRawData [(1 : Frame)] wfmtStd = some [255, 127] := by
    rw [samplesToRawData_sixteen _ _ (by decide)]
    simp [hres]
    decide
  simp only [waveBytes, framesToData, hraw, Option.map_some, Option.map_some']
  decide

/-- The concrete 46-byte output for one sample 1.0 and the stereo 16-bit
descriptor. -/
lemma waveBytes_one_stereoFmt16 :
    waveBytes [(1 : Frame)] stereoFmt16 =
      some [82, 73, 70, 70, 40, 0, 0, 0, 87, 65, 86, 69,
            102, 109, 116, 32, 16, 0, 0, 0, 1, 0, 2, 0, 68, 172, 0, 0,
            16, 177, 2, 0, 4, 0, 16, 0, 100, 97, 116, 97, 4, 0, 0, 0, 255, 127] := by
  have hres : rescaleFrame (1 : Frame) 16 = 32767 := by
    norm_num [rescaleFrame, ratTrunc, maxValues]
  have hraw : samplesToRawData [(1 : Frame)] stereoFmt16 = some [255, 127] := by
    rw [samplesToRawData_sixteen _ _ (by decide)]
    simp [hres]
    decide
  simp only [waveBytes, framesToData, hraw, Option.map_some, Option.map_some']
  decide

/-- C7: encoding the single frame with sample value 1.0 through a mono
16-bit descriptor produces an output of total length exactly 46 = 44 + 2
whose data subchunk payload, after the "data" tag at offset 36 and the size
field, is exactly the 2 little-endian bytes of 32767, namely [255, 127]. -/
theorem single_frame_max_sample (wfmt : WaveFmt) (out : Bytes)
    (hID : wfmt.Subchunk1ID.length = 4) (hch : wfmt.NumChannels = 1)
    (hb : wfmt.BitsPerSample = 16)
    (hout : waveBytes [(1 : Frame)] wfmt = some out) :
    out.length = 46 ∧ (out.drop 36).take 4 = Subchunk2ID ∧
    out.drop 44 = uint16LE 32767 ∧ uint16LE 32767 = [255, 127] := by
  have hres : rescaleFrame (1 : Frame) 16 = 32767 := by
    norm_num [rescaleFrame, ratTrunc, maxValues]
  obtain ⟨raw, hraw, rfl⟩ := waveBytes_some hout
  rw [samplesToRawData_sixteen _ _ hb] at hraw
  replace hraw := Option.some.inj hraw
  subst hraw
  refine ⟨?_, ?_, ?_, by decide⟩
  · simp [hID, hres]
  · rw [waveTail wfmt hID]
    exact List.take_left' Subchunk2ID_length
  · rw [show (44 : Nat) = 36 + 8 from rfl, ← List.drop_drop, waveTail wfmt hID,
      show (8 : Nat) = 4 + 4 from rfl, drop_block Subchunk2ID 4 Subchunk2ID_length,
      List.drop_left' (uint32LE_length _)]
    simp [hres]

/-- Witness for C7 at the standard mono 16-bit descriptor. -/
theorem single_frame_max_sample_witness :
    (wfmtStd.Subchunk1ID.length = 4 ∧ wfmtStd.NumChannels = 1 ∧
      wfmtStd.BitsPerSample = 16 ∧
      waveBytes [(1 : Frame)] wfmtStd =
        some [82, 73, 70, 70, 38, 0, 0, 0, 87, 65, 86, 69,
              102, 109, 116, 32, 16, 0, 0, 0, 1, 0, 1, 0, 68, 172, 0, 0,
              136, 88, 1, 0, 2, 0, 16, 0, 100, 97, 116, 97, 2, 0, 0, 0, 255, 127]) ∧
    (([82, 73, 70, 70, 38, 0, 0, 0, 87, 65, 86, 69,
       102, 109, 116, 32, 16, 0, 0, 0, 1, 0, 1, 0, 68, 172, 0, 0,
       136, 88, 1, 0, 2, 0, 16, 0, 100, 97, 116, 97, 2, 0, 0, 0, 255, 127] : Bytes).length
        = 46 ∧
     (List.take 4 (List.drop 36
       ([82, 73, 70, 70, 38, 0, 0, 0, 87, 65, 86, 69,
         102, 109, 116, 32, 16, 0, 0, 0, 1, 0, 1, 0, 68, 172, 0, 0,
         136, 88, 1, 0, 2, 0, 16, 0, 100, 97, 116, 97, 2, 0, 0, 0, 255, 127] : Bytes)))
        = Subchunk2ID ∧
     List.drop 44
       ([82, 73, 70, 70, 38, 0, 0, 0, 87, 65, 86, 69,
         102, 109, 116, 32, 16, 0, 0, 0, 1, 0, 1, 0, 68, 172, 0, 0,
         136, 88, 1, 0, 2, 0, 16, 0, 100, 97, 116, 97, 2, 0, 0, 0, 255, 127] : Bytes)
        = uint16LE 32767 ∧
     uint16LE 32767 = [255, 127]) :=
  ⟨⟨by decide, by decide, by decide, waveBytes_one_wfmtStd⟩,
    single_frame_max_sample wfmtStd _ (by decide) (by decide) (by decide)
      waveBytes_one_wfmtStd⟩

/-- C3 counterexample: with zero frames and a stereo descriptor the total
output length (44) is exactly 8 plus the value stored in the RIFF chunk-size
field (36), so the claimed "differs for NumChannels > 1" fails at N = 0. -/
theorem riff_total_matches_field_on_empty :
    (waveBytes ([] : List Frame) stereoFmt16).map
        (fun out => (out.length, 8 + readU32 out 4)) = some (44, 44) := by decide

/-- C3 (amended): for every sample sequence of length N and descriptor with
bitsPerSample ∈ {16, 32} and a 4-byte Subchunk1ID, a successful encode emits
exactly 44 + N × (bitsPerSample/8) bytes, independent of NumChannels; and
for NumChannels > 1 and N ≥ 1 (and a data size that fits the 4-byte field)
the total differs from 8 plus the value stored in the RIFF chunk-size
field. -/
theorem total_output_length (samples : List Frame) (wfmt : WaveFmt) (out : Bytes)
    (hID : wfmt.Subchunk1ID.length = 4)
    (hb : wfmt.BitsPerSample = 16 ∨ wfmt.BitsPerSample = 32)
    (hout : waveBytes samples wfmt = some out) :
    out.length = 44 + samples.length * (wfmt.BitsPerSample.toNat / 8) ∧
    (1 < wfmt.NumChannels → samples ≠ [] → 36 + dataSize samples wfmt < 4294967296 →
      out.length ≠ 8 + readU32 out 4) := by
  obtain ⟨raw, hraw, rfl⟩ := waveBytes_some hout
  rcases hb with h | h
  · rw [samplesToRawData_sixteen _ _ h] at hraw
    replace hraw := Option.some.inj hraw
    subst hraw
    have hrawlen := flatMap_const_length 2 (fun s => uint16LE_length (rescaleFrame s 16)) samples
    have houtlen : (ChunkID ++ (uint32LE (36 + dataSize samples wfmt) ++ (WaveID ++
        (wfmt.Subchunk1ID ++ (uint32LE wfmt.Subchunk1Size ++ (uint16LE wfmt.AudioFormat ++
        (uint16LE wfmt.NumChannels ++ (uint32LE wfmt.SampleRate ++ (uint32LE wfmt.ByteRate ++
        (uint16LE wfmt.BlockAlign ++ (uint16LE wfmt.BitsPerSample ++ (Subchunk2ID ++
        (uint32LE (dataSize samples wfmt) ++
          (samples.flatMap fun s => uint16LE (rescaleFrame s 16))))))))))))))).length =
        44 + samples.length * 2 := by
      simp [hID, hrawlen]
      omega
    constructor
    · rw [houtlen, h]
      rfl
    · intro hch hne hbound
      have hN : 1 ≤ samples.length := List.length_pos.mpr hne
      have hds : dataSize samples wfmt = (samples.length : Int) * wfmt.NumChannels * 2 := by
        rw [dataSize, h,
          show ((samples.length : Int) * wfmt.NumChannels * 16) =
            ((samples.length : Int) * wfmt.NumChannels * 2) * 8 from by ring]
        exact Int.mul_tdiv_cancel _ (by norm_num)
      have hcast : (1 : Int) ≤ (samples.length : Int) := by exact_mod_cast hN
      have key : (samples.length : Int) * 2 <
          (samples.length : Int) * wfmt.NumChannels * 2 := by nlinarith
      have h0 : (0 : Int) ≤ (samples.length : Int) * wfmt.NumChannels * 2 := by nlinarith
      have hread : readU32 (ChunkID ++ (uint32LE (36 + dataSize samples wfmt) ++ (WaveID ++
          (wfmt.Subchunk1ID ++ (uint32LE wfmt.Subchunk1Size ++ (uint16LE wfmt.AudioFormat ++
          (uint16LE wfmt.NumChannels ++ (uint32LE wfmt.SampleRate ++ (uint32LE wfmt.ByteRate ++
          (uint16LE wfmt.BlockAlign ++ (uint16LE wfmt.BitsPerSample ++ (Subchunk2ID ++
          (uint32LE (dataSize samples wfmt) ++
            (samples.flatMap fun s => uint16LE (rescaleFrame s 16))))))))))))))) 4 =
          (36 + dataSize samples wfmt).toNat := by
        rw [show (4 : Nat) = ChunkID.length + 0 from rfl, readU32_append, readU32_uint32LE]
        congr 1
        rw [hds] at hbound ⊢
        exact Int.emod_eq_of_lt (by omega) hbound
      rw [houtlen, hread, hds]
      rw [hds] at hbound
      omega
  · rw [samplesToRawData_thirtytwo _ _ h] at hraw
    replace hraw := Option.some.inj hraw
    subst hraw
    have hrawlen := flatMap_const_length 4 (fun s => uint32LE_length (rescaleFrame s 32)) samples
    have houtlen : (ChunkID ++ (uint32LE (36 + dataSize samples wfmt) ++ (WaveID ++
        (wfmt.Subchunk1ID ++ (uint32LE wfmt.Subchunk1Size ++ (uint16LE wfmt.AudioFormat ++
        (uint16LE wfmt.NumChannels ++ (uint32LE wfmt.SampleRate ++ (uint32LE wfmt.ByteRate ++
        (uint16LE wfmt.BlockAlign ++ (uint16LE wfmt.BitsPerSample ++ (Subchunk2ID ++
        (uint32LE (dataSize samples wfmt) ++
          (samples.flatMap fun s => uint32LE (rescaleFrame s 32))))))))))))))).length =
        44 + samples.length * 4 := by
      simp [hID, hrawlen]
      omega
    constructor
    · rw [houtlen, h]
      rfl
    · intro hch hne hbound
      have hN : 1 ≤ samples.length := List.length_pos.mpr hne
      have hds : dataSize samples wfmt = (samples.length : Int) * wfmt.NumChannels * 4 := by
        rw [dataSize, h,
          show ((samples.length : Int) * wfmt.NumChannels * 32) =
            ((samples.length : Int) * wfmt.NumChannels * 4) * 8 from by ring]
        exact Int.mul_tdiv_cancel _ (by norm_num)
      have hcast : (1 : Int) ≤ (samples.length : Int) := by exact_mod_cast hN
      have key : (samples.length : Int) * 4 <
          (samples.length : Int) * wfmt.NumChannels * 4 := by nlinarith
      have h0 : (0 : Int) ≤ (samples.length : Int) * wfmt.NumChannels * 4 := by nlinarith
      have hread : readU32 (ChunkID ++ (uint32LE (36 + dataSize samples wfmt) ++ (WaveID ++
          (wfmt.Subchunk1ID ++ (uint32LE wfmt.Subchunk1Size ++ (uint16LE wfmt.AudioFormat ++
          (uint16LE wfmt.NumChannels ++ (uint32LE wfmt.SampleRate ++ (uint32LE wfmt.ByteRate ++
          (uint16LE wfmt.BlockAlign ++ (uint16LE wfmt.BitsPerSample ++ (Subchunk2ID ++
          (uint32LE (dataSize samples wfmt) ++
            (samples.flatMap fun s => uint32LE (rescaleFrame s 32))))))))))))))) 4 =
          (36 + dataSize samples wfmt).toNat := by
        rw [show (4 : Nat) = ChunkID.length + 0 from rfl, readU32_append, readU32_uint32LE]
        congr 1
        rw [hds] at hbound ⊢
        exact Int.emod_eq_of_lt (by omega) hbound
      rw [houtlen, hread, hds]
      rw [hds] at hbound
      omega

/-- Witness for C3 (amended) at one frame with the stereo 16-bit
descriptor. -/
theorem total_output_length_witness :
    (stereoFmt16.Subchunk1ID.length = 4 ∧
      (stereoFmt16.BitsPerSample = 16 ∨ stereoFmt16.BitsPerSample = 32) ∧
      waveBytes [(1 : Frame)] stereoFmt16 =
        some [82, 73, 70, 70, 40, 0, 0, 0, 87, 65, 86, 69,
              102, 109, 116, 32, 16, 0, 0, 0, 1, 0, 2, 0, 68, 172, 0, 0,
              16, 177, 2, 0, 4, 0, 16, 0, 100, 97, 116, 97, 4, 0, 0, 0, 255, 127]) ∧
    (([82, 73, 70, 70, 40, 0, 0, 0, 87, 65, 86, 69,
       102, 109, 116, 32, 16, 0, 0, 0, 1, 0, 2, 0, 68, 172, 0, 0,
       16, 177, 2, 0, 4, 0, 16, 0, 100, 97, 116, 97, 4, 0, 0, 0, 255, 127] : Bytes).length =
        44 + [(1 : Frame)].length * (stereoFmt16.BitsPerSample.toNat / 8) ∧
     (1 < stereoFmt16.NumChannels → [(1 : Frame)] ≠ [] →
       36 + dataSize [(1 : Frame)] stereoFmt16 < 4294967296 →
       ([82, 73, 70, 70, 40, 0, 0, 0, 87, 65, 86, 69,
         102, 109, 116, 32, 16, 0, 0, 0, 1, 0, 2, 0, 68, 172, 0, 0,
         16, 177, 2, 0, 4, 0, 16, 0, 100, 97, 116, 97, 4, 0, 0, 0, 255, 127] : Bytes).length ≠
         8 + readU32 [82, 73, 70, 70, 40, 0, 0, 0, 87, 65, 86, 69,
           102, 109, 116, 32, 16, 0, 0, 0, 1, 0, 2, 0, 68, 172, 0, 0,
           16, 177, 2, 0, 4, 0, 16, 0, 100, 97, 116, 97, 4, 0, 0, 0, 255, 127] 4)) :=
  ⟨⟨by decide, Or.inl (by decide), waveBytes_one_stereoFmt16⟩,
    total_output_length [(1 : Frame)] stereoFmt16 _ (by decide) (Or.inl (by decide))
      waveBytes_one_stereoFmt16⟩

end GoAudio.Wave
